import Mathlib

/-!
Verification of the statistical modelling engine of the Gamepicker repository
(`src/app.js`).  Numbers are idealised: JavaScript floating-point values are
embedded as rationals (`ℚ`) for the aggregation / rating layer — together with
a `JsNum` type recording the special values `NaN` / `Infinity` so that the
"never produces NaN/Infinity" guarantees are expressible — and as reals (`ℝ`)
for the Poisson scoring-distribution layer (which uses `Math.exp`).
Dates are embedded at day granularity as integers: the app parses `YYYY-MM-DD`
strings to UTC midnights and only ever shifts them by whole days.
-/

namespace Gamepicker

/-- `EPS` from `app.js` line 26: the guarded-division epsilon `0.0001`. -/
def EPS : ℚ := 0.0001

/-! ## Dates (`toDate`, app.js lines 153-155)

A date-valued input is either absent (JS `null`/`undefined`/empty string),
present but unparseable (JS `Invalid Date`), or a parseable calendar date,
embedded as a day number.  `toDate` returns `none` for absent input (JS
`null`), and otherwise a JS `Date` object, itself embedded as `Option ℤ`
(`none` = `Invalid Date`, whose comparisons are all false). -/

inductive DateVal where
  | absent
  | invalid
  | ok (day : ℤ)
deriving DecidableEq, Repr

/-- `toDate` (app.js 153-155): `value ? new Date(value) : null`. -/
def toDate : DateVal → Option (Option ℤ)
  | .absent => none
  | .invalid => some none
  | .ok d => some (some d)

/-- JS `>=` on `Date` objects: comparisons against `Invalid Date` (`NaN`
timestamp) are false. -/
def dateGE : Option ℤ → Option ℤ → Bool
  | some a, some b => decide (b ≤ a)
  | _, _ => false

/-- JS `<` on `Date` objects: comparisons against `Invalid Date` are false. -/
def dateLT : Option ℤ → Option ℤ → Bool
  | some a, some b => decide (a < b)
  | _, _ => false

/-- `windowStart.setDate(windowStart.getDate() - windowDays)`: shifting an
invalid date leaves it invalid. -/
def subDays : Option ℤ → ℤ → Option ℤ
  | some d, w => some (d - w)
  | none, _ => none

/-! ## Match records and metrics -/

/-- One historical match record as consumed by `app.js` (normalised JSON).
Numeric statistics may be absent (`null` in the data), never NaN. -/
structure MatchRecord where
  HomeTeam : String
  AwayTeam : String
  dateISO : DateVal
  FTR : Option String
  FTHG : Option ℚ
  HS : Option ℚ
  HST : Option ℚ
  FTAG : Option ℚ
  AS : Option ℚ
  AST : Option ℚ
  AvgH : Option ℚ
  AvgD : Option ℚ
  AvgA : Option ℚ
  AvgOver25 : Option ℚ
  AvgUnder25 : Option ℚ
deriving DecidableEq, Repr

/-- The eleven metric keys of the `metrics` object in `computeAggregates`
(app.js 244-256). -/
inductive Metric where
  | FTHG | HS | HST | FTAG | AS | AST
  | AvgH | AvgD | AvgA | AvgOver25 | AvgUnder25
deriving DecidableEq, Repr

/-- `match[key]` for a metric key. -/
def MatchRecord.metricValue (m : MatchRecord) : Metric → Option ℚ
  | .FTHG => m.FTHG
  | .HS => m.HS
  | .HST => m.HST
  | .FTAG => m.FTAG
  | .AS => m.AS
  | .AST => m.AST
  | .AvgH => m.AvgH
  | .AvgD => m.AvgD
  | .AvgA => m.AvgA
  | .AvgOver25 => m.AvgOver25
  | .AvgUnder25 => m.AvgUnder25

/-! ## Match Filter (`filterMatches`, app.js 226-237) -/

/-- `filterMatches` (app.js 226-237). -/
def filterMatches (matchList : List MatchRecord) (fixtureDateISO : DateVal)
    (windowDays : ℤ) : List MatchRecord :=
  match toDate fixtureDateISO with
  | none => []
  | some fixtureDate =>
    let windowStart := subDays fixtureDate windowDays
    matchList.filter fun m =>
      match toDate m.dateISO with
      | none => false
      | some matchDate => dateGE matchDate windowStart && dateLT matchDate fixtureDate

/-! ## Aggregator (`computeAggregates`, app.js 243-308) -/

/-- `isValidNumber` (app.js 239-241) on a possibly-absent data value:
`value !== null && value !== undefined && !Number.isNaN(value)`.  Data values
are never NaN, so this is presence. -/
def isValidNumber (v : Option ℚ) : Bool := v.isSome

/-- The role filter at the top of the `matches.forEach` body (app.js 266-271):
a match is skipped when `homeTeam` is given and differs from the match's home
team, or `awayTeam` is given and differs from the match's away team. -/
def rolePass (homeTeam awayTeam : Option String) (m : MatchRecord) : Bool :=
  (match homeTeam with
   | some h => decide (m.HomeTeam = h)
   | none => true) &&
  (match awayTeam with
   | some a => decide (m.AwayTeam = a)
   | none => true)

/-- Mutable accumulation state of `computeAggregates`: the per-metric
`{sum, count}` pairs plus the categorical totals. -/
structure AggState where
  sums : Metric → ℚ
  counts : Metric → ℕ
  gamesPlayed : ℕ
  homeWin : ℕ
  draw : ℕ
  awayWin : ℕ
  over25 : ℕ
  under25 : ℕ

def initAggState : AggState :=
  { sums := fun _ => 0, counts := fun _ => 0,
    gamesPlayed := 0, homeWin := 0, draw := 0, awayWin := 0,
    over25 := 0, under25 := 0 }

/-- The body of `matches.forEach` in `computeAggregates` (app.js 265-290). -/
def aggStep (homeTeam awayTeam : Option String) (st : AggState)
    (m : MatchRecord) : AggState :=
  if rolePass homeTeam awayTeam m then
    { sums := fun k =>
        match m.metricValue k with
        | some v => st.sums k + v
        | none => st.sums k,
      counts := fun k =>
        match m.metricValue k with
        | some _ => st.counts k + 1
        | none => st.counts k,
      gamesPlayed := st.gamesPlayed + 1,
      homeWin := st.homeWin + (if m.FTR = some "H" then 1 else 0),
      draw := st.draw + (if m.FTR = some "D" then 1 else 0),
      awayWin := st.awayWin + (if m.FTR = some "A" then 1 else 0),
      over25 := st.over25 +
        (match m.FTHG, m.FTAG with
         | some gh, some ga => if 5/2 < gh + ga then 1 else 0
         | _, _ => 0),
      under25 := st.under25 +
        (match m.FTHG, m.FTAG with
         | some gh, some ga => if gh + ga < 5/2 then 1 else 0
         | _, _ => 0) }
  else st

/-- The categorical totals block of an `AggregateResult`. -/
structure Totals where
  gamesPlayed : ℕ
  homeWin : ℕ
  draw : ℕ
  awayWin : ℕ
  over25 : ℕ
  under25 : ℕ
deriving DecidableEq, Repr

/-- An `AggregateResult`: metric averages (absent when no contributing
match) and totals. -/
structure Aggregates where
  averages : Metric → Option ℚ
  totals : Totals

/-- `computeAggregates` (app.js 243-308). -/
def computeAggregates (matchList : List MatchRecord)
    (homeTeam awayTeam : Option String) : Aggregates :=
  let st := matchList.foldl (aggStep homeTeam awayTeam) initAggState
  { averages := fun k =>
      if 0 < st.counts k then some (st.sums k / st.counts k) else none,
    totals :=
      { gamesPlayed := st.gamesPlayed, homeWin := st.homeWin, draw := st.draw,
        awayWin := st.awayWin, over25 := st.over25, under25 := st.under25 } }

/-! ## JavaScript numbers

The rating model's safety contract is about never producing `NaN` or
`Infinity`, so its values are embedded as rationals extended with the three
special values, with JS arithmetic semantics (signed zeros ignored). -/

inductive JsNum where
  | num (q : ℚ)
  | nan
  | inf
  | ninf
deriving DecidableEq, Repr

namespace JsNum

/-- `isValidNumber` (app.js 239-241) on a plain number: only `NaN` fails. -/
def isValidNumber : JsNum → Bool
  | nan => false
  | _ => true

def isFiniteB : JsNum → Bool
  | num _ => true
  | _ => false

/-- JS `>= 0`, read as a proposition; `Infinity` counts as non-negative. -/
def isNonneg : JsNum → Prop
  | num q => 0 ≤ q
  | inf => True
  | _ => False

def neg : JsNum → JsNum
  | num q => num (-q)
  | nan => nan
  | inf => ninf
  | ninf => inf

def add : JsNum → JsNum → JsNum
  | nan, _ => nan
  | _, nan => nan
  | num a, num b => num (a + b)
  | num _, inf => inf
  | inf, num _ => inf
  | num _, ninf => ninf
  | ninf, num _ => ninf
  | inf, inf => inf
  | ninf, ninf => ninf
  | inf, ninf => nan
  | ninf, inf => nan

def sub (a b : JsNum) : JsNum := add a (neg b)

def mul : JsNum → JsNum → JsNum
  | nan, _ => nan
  | _, nan => nan
  | num a, num b => num (a * b)
  | num a, inf => if a = 0 then nan else if 0 < a then inf else ninf
  | inf, num b => if b = 0 then nan else if 0 < b then inf else ninf
  | num a, ninf => if a = 0 then nan else if 0 < a then ninf else inf
  | ninf, num b => if b = 0 then nan else if 0 < b then ninf else inf
  | inf, inf => inf
  | ninf, ninf => inf
  | inf, ninf => ninf
  | ninf, inf => ninf

def div : JsNum → JsNum → JsNum
  | nan, _ => nan
  | _, nan => nan
  | num a, num b =>
      if b = 0 then (if a = 0 then nan else if 0 < a then inf else ninf)
      else num (a / b)
  | num _, inf => num 0
  | num _, ninf => num 0
  | inf, num b => if 0 ≤ b then inf else ninf
  | ninf, num b => if 0 ≤ b then ninf else inf
  | inf, inf => nan
  | inf, ninf => nan
  | ninf, inf => nan
  | ninf, ninf => nan

/-- `Math.max` (binary). -/
def maxJ : JsNum → JsNum → JsNum
  | nan, _ => nan
  | _, nan => nan
  | num a, num b => num (max a b)
  | inf, num _ => inf
  | num _, inf => inf
  | inf, inf => inf
  | inf, ninf => inf
  | ninf, inf => inf
  | ninf, num b => num b
  | num a, ninf => num a
  | ninf, ninf => ninf

/-- JS `>=`: any comparison with `NaN` is false. -/
def geB : JsNum → JsNum → Bool
  | nan, _ => false
  | _, nan => false
  | num x, num y => decide (y ≤ x)
  | inf, _ => true
  | num _, inf => false
  | ninf, inf => false
  | num _, ninf => true
  | ninf, num _ => false
  | ninf, ninf => true

/-- JS `<=`: any comparison with `NaN` is false. -/
def leB : JsNum → JsNum → Bool
  | nan, _ => false
  | _, nan => false
  | num x, num y => decide (x ≤ y)
  | ninf, _ => true
  | num _, ninf => false
  | inf, ninf => false
  | num _, inf => true
  | inf, num _ => false
  | inf, inf => true

instance : Add JsNum := ⟨JsNum.add⟩
instance : Sub JsNum := ⟨JsNum.sub⟩
instance : Mul JsNum := ⟨JsNum.mul⟩
instance : Div JsNum := ⟨JsNum.div⟩
instance : Neg JsNum := ⟨JsNum.neg⟩

end JsNum

/-- `clampNonNeg` (app.js 73-78). -/
def clampNonNeg (value : JsNum) : JsNum :=
  if value.isValidNumber then JsNum.maxJ (JsNum.num 0) value else JsNum.num 0

/-- `safeDiv` (app.js 67-71): guarded division, denominator clamped up to
`EPS`. -/
def safeDiv (numerator denominator : JsNum) : JsNum :=
  let safeNumerator := if numerator.isValidNumber then numerator else JsNum.num 0
  let safeDenominator :=
    if denominator.isValidNumber then denominator else JsNum.num 0
  safeNumerator / JsNum.maxJ safeDenominator (JsNum.num EPS)

/-- `applyDeviationControl` (app.js 80-103): the 16-band deviation multiplier
table applied to the blended expected-goals figure, clamped non-negative. -/
def applyDeviationControl (xGoalsByForm goalsVAvg : JsNum) : JsNum :=
  let base := if xGoalsByForm.isValidNumber then xGoalsByForm else JsNum.num 0
  let delta := if goalsVAvg.isValidNumber then goalsVAvg else JsNum.num 0
  let multiplier : ℚ :=
    if delta.geB (JsNum.num 2) then 0.75
    else if delta.geB (JsNum.num 1.75) then 0.8
    else if delta.geB (JsNum.num 1.5) then 0.85
    else if delta.geB (JsNum.num 1.25) then 0.9
    else if delta.geB (JsNum.num 1) then 0.9
    else if delta.geB (JsNum.num 0.75) then 0.95
    else if delta.geB (JsNum.num 0.5) then 0.975
    else if delta.geB (JsNum.num 0.25) then 0.99
    else if delta.leB (JsNum.num (-2)) then 1.25
    else if delta.leB (JsNum.num (-1.75)) then 1.2
    else if delta.leB (JsNum.num (-1.5)) then 1.15
    else if delta.leB (JsNum.num (-1.25)) then 1.1
    else if delta.leB (JsNum.num (-1)) then 1.1
    else if delta.leB (JsNum.num (-0.75)) then 1.05
    else if delta.leB (JsNum.num (-0.5)) then 1.025
    else if delta.leB (JsNum.num (-0.25)) then 1.01
    else 1
  clampNonNeg (base * JsNum.num multiplier)

/-! ## Rating Model (`computePredictions`, app.js 821-938)

The scalar portion of `computePredictions`.  In the source the same function
then feeds `HGoalsFormDevi` / `AGoalsFormDevi` into `poissonProbabilities`,
`buildCorrectScoreGrid` and `computeSummaryMarkets`; those live in the
real-valued section below. -/

/-- The scalar fields of a `PredictionResult` (app.js 904-932). -/
structure Predictions where
  HomeAttackScore : JsNum
  HomeDefenceScore : JsNum
  AwayAttackScore : JsNum
  AwayDefenceScore : JsNum
  Home_xG_Goals : JsNum
  Away_xG_Goals : JsNum
  Home_xShots : JsNum
  Away_xShots : JsNum
  Home_xSOT : JsNum
  Away_xSOT : JsNum
  HomeGoalsPerShotFor : JsNum
  HomeGoalsPerSOTFor : JsNum
  HomeGoalsPerShotAgainst : JsNum
  HomeGoalsPerSOTAgainst : JsNum
  AwayGoalsPerShotFor : JsNum
  AwayGoalsPerSOTFor : JsNum
  AwayGoalsPerShotAgainst : JsNum
  AwayGoalsPerSOTAgainst : JsNum
  HomeGoalsBy_xShots : JsNum
  AwayGoalsBy_xShots : JsNum
  HomeGoalsBy_xSOT : JsNum
  AwayGoalsBy_xSOT : JsNum
  Home_xGoalsByForm : JsNum
  Away_xGoalsByForm : JsNum
  HGoals_v_Avg : JsNum
  AGoals_v_Avg : JsNum
  HGoalsFormDevi : JsNum
  AGoalsFormDevi : JsNum
deriving DecidableEq, Repr

/-- `computePredictions` (app.js 821-938), scalar fields. -/
def computePredictions (homeAgg awayAgg leagueAgg : Aggregates) : Predictions :=
  let avg : Aggregates → Metric → ℚ := fun source key =>
    match source.averages key with
    | some v => v
    | none => 0
  let LeagueAvgHomeGoals := JsNum.num (avg leagueAgg .FTHG)
  let LeagueAvgAwayGoals := JsNum.num (avg leagueAgg .FTAG)
  let LeagueAvgHomeShots := JsNum.num (avg leagueAgg .HS)
  let LeagueAvgAwayShots := JsNum.num (avg leagueAgg .AS)
  let LeagueAvgHomeSOT := JsNum.num (avg leagueAgg .HST)
  let LeagueAvgAwaySOT := JsNum.num (avg leagueAgg .AST)
  let AvgHomeFTHG := JsNum.num (avg homeAgg .FTHG)
  let AvgHomeFTAG := JsNum.num (avg homeAgg .FTAG)
  let AvgHomeHS := JsNum.num (avg homeAgg .HS)
  let AvgHomeAS := JsNum.num (avg homeAgg .AS)
  let AvgHomeHST := JsNum.num (avg homeAgg .HST)
  let AvgHomeAST := JsNum.num (avg homeAgg .AST)
  let AvgAwayFTHG := JsNum.num (avg awayAgg .FTHG)
  let AvgAwayFTAG := JsNum.num (avg awayAgg .FTAG)
  let AvgAwayHS := JsNum.num (avg awayAgg .HS)
  let AvgAwayAS := JsNum.num (avg awayAgg .AS)
  let AvgAwayHST := JsNum.num (avg awayAgg .HST)
  let AvgAwayAST := JsNum.num (avg awayAgg .AST)
  let HomeAttackScore := safeDiv AvgHomeFTHG LeagueAvgHomeGoals
  let HomeDefenceScore := safeDiv AvgHomeFTAG LeagueAvgAwayGoals
  let AwayAttackScore := safeDiv AvgAwayFTAG LeagueAvgAwayGoals
  let AwayDefenceScore := safeDiv AvgAwayFTHG LeagueAvgHomeGoals
  let Home_xG_Goals := HomeAttackScore * AwayDefenceScore * LeagueAvgHomeGoals
  let Away_xG_Goals := AwayAttackScore * HomeDefenceScore * LeagueAvgAwayGoals
  let HomeShotsForScore := safeDiv AvgHomeHS LeagueAvgHomeShots
  let HomeShotsAgainstScore := safeDiv AvgHomeAS LeagueAvgAwayShots
  let AwayShotsForScore := safeDiv AvgAwayAS LeagueAvgAwayShots
  let AwayShotsAgainstScore := safeDiv AvgAwayHS LeagueAvgHomeShots
  let Home_xShots := HomeShotsForScore * AwayShotsAgainstScore * LeagueAvgHomeShots
  let Away_xShots := AwayShotsForScore * HomeShotsAgainstScore * LeagueAvgAwayShots
  let HomeGoalsPerShotFor := safeDiv AvgHomeFTHG AvgHomeHS
  let HomeGoalsPerSOTFor := safeDiv AvgHomeFTHG AvgHomeHST
  let HomeGoalsPerShotAgainst := safeDiv AvgHomeFTAG AvgHomeAS
  let HomeGoalsPerSOTAgainst := safeDiv AvgHomeFTAG AvgHomeAST
  let AwayGoalsPerShotFor := safeDiv AvgAwayFTAG AvgAwayAS
  let AwayGoalsPerSOTFor := safeDiv AvgAwayFTAG AvgAwayAST
  let AwayGoalsPerShotAgainst := safeDiv AvgAwayFTHG AvgAwayHS
  let AwayGoalsPerSOTAgainst := safeDiv AvgAwayFTHG AvgAwayHST
  let HomeSOTForScore := safeDiv AvgHomeHST LeagueAvgHomeSOT
  let HomeSOTAgainstScore := safeDiv AvgHomeAST LeagueAvgAwaySOT
  let AwaySOTForScore := safeDiv AvgAwayAST LeagueAvgAwaySOT
  let AwaySOTAgainstScore := safeDiv AvgAwayHST LeagueAvgHomeSOT
  let Home_xSOT := HomeSOTForScore * AwaySOTAgainstScore * LeagueAvgHomeSOT
  let Away_xSOT := AwaySOTForScore * HomeSOTAgainstScore * LeagueAvgAwaySOT
  let HomeGoalsBy_xShots := Home_xShots * AwayGoalsPerShotAgainst
  let AwayGoalsBy_xShots := Away_xShots * HomeGoalsPerShotAgainst
  let HomeGoalsBy_xSOT := Home_xSOT * AwayGoalsPerSOTAgainst
  let AwayGoalsBy_xSOT := Away_xSOT * HomeGoalsPerSOTAgainst
  let Home_xGoalsByForm :=
    JsNum.num 0.5 * Home_xG_Goals + JsNum.num 0.25 * HomeGoalsBy_xShots +
      JsNum.num 0.25 * HomeGoalsBy_xSOT
  let Away_xGoalsByForm :=
    JsNum.num 0.5 * Away_xG_Goals + JsNum.num 0.25 * AwayGoalsBy_xShots +
      JsNum.num 0.25 * AwayGoalsBy_xSOT
  let HGoals_v_Avg := Home_xGoalsByForm - LeagueAvgHomeGoals
  let AGoals_v_Avg := Away_xGoalsByForm - LeagueAvgAwayGoals
  let HGoalsFormDevi := applyDeviationControl Home_xGoalsByForm HGoals_v_Avg
  let AGoalsFormDevi := applyDeviationControl Away_xGoalsByForm AGoals_v_Avg
  { HomeAttackScore := HomeAttackScore,
    HomeDefenceScore := HomeDefenceScore,
    AwayAttackScore := AwayAttackScore,
    AwayDefenceScore := AwayDefenceScore,
    Home_xG_Goals := Home_xG_Goals,
    Away_xG_Goals := Away_xG_Goals,
    Home_xShots := Home_xShots,
    Away_xShots := Away_xShots,
    Home_xSOT := Home_xSOT,
    Away_xSOT := Away_xSOT,
    HomeGoalsPerShotFor := HomeGoalsPerShotFor,
    HomeGoalsPerSOTFor := HomeGoalsPerSOTFor,
    HomeGoalsPerShotAgainst := HomeGoalsPerShotAgainst,
    HomeGoalsPerSOTAgainst := HomeGoalsPerSOTAgainst,
    AwayGoalsPerShotFor := AwayGoalsPerShotFor,
    AwayGoalsPerSOTFor := AwayGoalsPerSOTFor,
    AwayGoalsPerShotAgainst := AwayGoalsPerShotAgainst,
    AwayGoalsPerSOTAgainst := AwayGoalsPerSOTAgainst,
    HomeGoalsBy_xShots := HomeGoalsBy_xShots,
    AwayGoalsBy_xShots := AwayGoalsBy_xShots,
    HomeGoalsBy_xSOT := HomeGoalsBy_xSOT,
    AwayGoalsBy_xSOT := AwayGoalsBy_xSOT,
    Home_xGoalsByForm := Home_xGoalsByForm,
    Away_xGoalsByForm := Away_xGoalsByForm,
    HGoals_v_Avg := HGoals_v_Avg,
    AGoals_v_Avg := AGoals_v_Avg,
    HGoalsFormDevi := HGoalsFormDevi,
    AGoalsFormDevi := AGoalsFormDevi }

/-- All scalar fields of a `Predictions` value, for quantifying over them. -/
def Predictions.fieldsList (p : Predictions) : List JsNum :=
  [p.HomeAttackScore, p.HomeDefenceScore, p.AwayAttackScore, p.AwayDefenceScore,
   p.Home_xG_Goals, p.Away_xG_Goals, p.Home_xShots, p.Away_xShots,
   p.Home_xSOT, p.Away_xSOT,
   p.HomeGoalsPerShotFor, p.HomeGoalsPerSOTFor,
   p.HomeGoalsPerShotAgainst, p.HomeGoalsPerSOTAgainst,
   p.AwayGoalsPerShotFor, p.AwayGoalsPerSOTFor,
   p.AwayGoalsPerShotAgainst, p.AwayGoalsPerSOTAgainst,
   p.HomeGoalsBy_xShots, p.AwayGoalsBy_xShots,
   p.HomeGoalsBy_xSOT, p.AwayGoalsBy_xSOT,
   p.Home_xGoalsByForm, p.Away_xGoalsByForm,
   p.HGoals_v_Avg, p.AGoals_v_Avg,
   p.HGoalsFormDevi, p.AGoalsFormDevi]

/-! ## Scoring Distribution Model and Outcome Grid (app.js 105-151, 789-819)

These use `Math.exp`, so they are embedded over `ℝ`. -/

noncomputable section

/-- The `for (let k = 1; k <= maxGoals; ...)` loop of `poissonProbabilities`
(app.js 114-118): starting from `current` at index `k`, produce the next
`fuel` probabilities via `current *= safeLambda / k`. -/
def poissonAux (lam : ℝ) (current : ℝ) (k : ℕ) : ℕ → List ℝ
  | 0 => []
  | fuel + 1 =>
    (current * (lam / (k : ℝ))) :: poissonAux lam (current * (lam / (k : ℝ))) (k + 1) fuel

/-- `poissonProbabilities` (app.js 105-122).  `clampNonNeg` on a real-valued
λ is `max 0`. -/
def poissonProbabilities (lambda : ℝ) (maxGoals : ℕ := 9) : List ℝ × ℝ :=
  let safeLambda := max 0 lambda
  let first := Real.exp (-safeLambda)
  let probs := first :: poissonAux safeLambda first 1 maxGoals
  (probs, max 0 (1 - probs.sum))

/-- Result of `buildCorrectScoreGrid` (app.js 124-151). -/
structure ScoreGrid where
  grid : List (List ℝ)
  homeWin : ℝ
  draw : ℝ
  awayWin : ℝ

/-- `buildCorrectScoreGrid` (app.js 124-151): the outer-product correct-score
grid over indices `0..size` (index `size` being the "9+" tail bucket), with
the win/draw/loss masses accumulated cell by cell. -/
def buildCorrectScoreGrid (homeProbs awayProbs : List ℝ)
    (home9Plus away9Plus : ℝ) : ScoreGrid :=
  let size := homeProbs.length
  let homeProbAt := fun i => if i = size then home9Plus else homeProbs.getD i 0
  let awayProbAt := fun j => if j = size then away9Plus else awayProbs.getD j 0
  let cellAt := fun i j => homeProbAt i * awayProbAt j
  { grid := (List.range (size + 1)).map fun i =>
      (List.range (size + 1)).map fun j => cellAt i j,
    homeWin := ∑ i ∈ Finset.range (size + 1), ∑ j ∈ Finset.range (size + 1),
      if j < i then cellAt i j else 0,
    draw := ∑ i ∈ Finset.range (size + 1), ∑ j ∈ Finset.range (size + 1),
      if i = j then cellAt i j else 0,
    awayWin := ∑ i ∈ Finset.range (size + 1), ∑ j ∈ Finset.range (size + 1),
      if i < j then cellAt i j else 0 }

/-- The market totals accumulated by `computeSummaryMarkets` (app.js 792-800,
817). -/
structure SummaryTotals where
  over15 : ℝ
  under15 : ℝ
  over25 : ℝ
  under25 : ℝ
  over35 : ℝ
  under35 : ℝ
  bttsYes : ℝ
  bttsNo : ℝ

/-- `computeSummaryMarkets` (app.js 789-819).  The tail-bucket index
(`maxIndex`) counts as exactly 10 goals; the iteration bounds follow the
nested `forEach` over the grid's rows. -/
def computeSummaryMarkets (grid : List (List ℝ)) : SummaryTotals :=
  let maxIndex := grid.length - 1
  let goalValue : ℕ → ℕ := fun index => if index = maxIndex then 10 else index
  let cellAt := fun i j => (grid.getD i []).getD j 0
  let rowLen := fun i => (grid.getD i []).length
  let bttsYes := ∑ i ∈ Finset.range grid.length, ∑ j ∈ Finset.range (rowLen i),
    if 1 ≤ goalValue i ∧ 1 ≤ goalValue j then cellAt i j else 0
  { over15 := ∑ i ∈ Finset.range grid.length, ∑ j ∈ Finset.range (rowLen i),
      if (3 : ℚ) / 2 < (goalValue i + goalValue j : ℚ) then cellAt i j else 0,
    under15 := ∑ i ∈ Finset.range grid.length, ∑ j ∈ Finset.range (rowLen i),
      if (3 : ℚ) / 2 < (goalValue i + goalValue j : ℚ) then 0 else cellAt i j,
    over25 := ∑ i ∈ Finset.range grid.length, ∑ j ∈ Finset.range (rowLen i),
      if (5 : ℚ) / 2 < (goalValue i + goalValue j : ℚ) then cellAt i j else 0,
    under25 := ∑ i ∈ Finset.range grid.length, ∑ j ∈ Finset.range (rowLen i),
      if (5 : ℚ) / 2 < (goalValue i + goalValue j : ℚ) then 0 else cellAt i j,
    over35 := ∑ i ∈ Finset.range grid.length, ∑ j ∈ Finset.range (rowLen i),
      if (7 : ℚ) / 2 < (goalValue i + goalValue j : ℚ) then cellAt i j else 0,
    under35 := ∑ i ∈ Finset.range grid.length, ∑ j ∈ Finset.range (rowLen i),
      if (7 : ℚ) / 2 < (goalValue i + goalValue j : ℚ) then 0 else cellAt i j,
    bttsYes := bttsYes,
    bttsNo := max 0 (1 - bttsYes) }

end

/-! ## Sample records used by witnesses -/

/-- A minimal match record with the given date and full-time goals. -/
def mRec (date : DateVal) (gh ga : Option ℚ) : MatchRecord :=
  { HomeTeam := "Alpha", AwayTeam := "Beta", dateISO := date, FTR := some "H",
    FTHG := gh, HS := none, HST := none, FTAG := ga, AS := none, AST := none,
    AvgH := none, AvgD := none, AvgA := none, AvgOver25 := none,
    AvgUnder25 := none }

/-! ## Theorems: Match Filter -/

/-- C6: for a parseable fixture date `f` and window `w`, `filterMatches`
keeps exactly the matches whose (parseable) date `d` satisfies
`f - w ≤ d < f`; in particular a match dated exactly on the fixture date is
excluded and one dated exactly `w` days before is included. -/
theorem filterMatches_half_open (ms : List MatchRecord) (f w : ℤ)
    (m : MatchRecord) :
    m ∈ filterMatches ms (DateVal.ok f) w ↔
      m ∈ ms ∧ ∃ d : ℤ, m.dateISO = DateVal.ok d ∧ f - w ≤ d ∧ d < f := by
  unfold filterMatches
  simp only [toDate, subDays]
  rw [List.mem_filter]
  refine and_congr_right fun _ => ?_
  cases h : m.dateISO with
  | absent => simp [toDate, h]
  | invalid => simp [toDate, h, dateGE]
  | ok d => simp [toDate, h, dateGE, dateLT, and_assoc]

/-- C10: every record returned by `filterMatches` has a present, parseable
date, for any fixture-date input. -/
theorem filterMatches_dates_present (ms : List MatchRecord) (fd : DateVal)
    (w : ℤ) (m : MatchRecord) (hm : m ∈ filterMatches ms fd w) :
    ∃ d : ℤ, m.dateISO = DateVal.ok d := by
  cases fd with
  | absent => simp [filterMatches, toDate] at hm
  | invalid =>
    unfold filterMatches at hm
    simp only [toDate, subDays] at hm
    rw [List.mem_filter] at hm
    cases h : m.dateISO with
    | absent => simp [toDate, h] at hm
    | invalid => simp [toDate, h, dateGE] at hm
    | ok d => exact ⟨d, rfl⟩
  | ok f =>
    cases h : m.dateISO with
    | absent =>
      unfold filterMatches at hm
      simp only [toDate, subDays] at hm
      rw [List.mem_filter] at hm
      simp [toDate, h] at hm
    | invalid =>
      unfold filterMatches at hm
      simp only [toDate, subDays] at hm
      rw [List.mem_filter] at hm
      simp [toDate, h, dateGE] at hm
    | ok d => exact ⟨d, rfl⟩

/-- C10 witness: a concrete record inside the window indeed carries a
parseable date. -/
theorem filterMatches_dates_present_witness :
    mRec (DateVal.ok 5) none none
        ∈ filterMatches [mRec (DateVal.ok 5) none none] (DateVal.ok 10) 30 ∧
      ∃ d : ℤ, (mRec (DateVal.ok 5) none none).dateISO = DateVal.ok d := by
  have hmem : mRec (DateVal.ok 5) none none
      ∈ filterMatches [mRec (DateVal.ok 5) none none] (DateVal.ok 10) 30 := by
    decide
  exact ⟨hmem,
    filterMatches_dates_present [mRec (DateVal.ok 5) none none]
      (DateVal.ok 10) 30 (mRec (DateVal.ok 5) none none) hmem⟩

/-! ## Theorems: Aggregator -/

theorem foldl_aggStep_sums (h a : Option String) (k : Metric) :
    ∀ (ms : List MatchRecord) (st : AggState),
      (ms.foldl (aggStep h a) st).sums k =
        st.sums k +
          ((ms.filter (rolePass h a)).filterMap fun m => m.metricValue k).sum := by
  intro ms
  induction ms with
  | nil => intro st; simp
  | cons m ms ih =>
    intro st
    rw [List.foldl_cons, ih]
    by_cases hp : rolePass h a m = true
    · rw [List.filter_cons_of_pos hp]
      cases hv : m.metricValue k with
      | some v =>
        simp only [aggStep, hp, if_true, List.filterMap_cons, hv, List.sum_cons]
        ring
      | none => simp [aggStep, hp, hv]
    · rw [List.filter_cons_of_neg (by simpa using hp)]
      simp [aggStep, hp]

theorem foldl_aggStep_counts (h a : Option String) (k : Metric) :
    ∀ (ms : List MatchRecord) (st : AggState),
      (ms.foldl (aggStep h a) st).counts k =
        st.counts k +
          ((ms.filter (rolePass h a)).filterMap fun m => m.metricValue k).length := by
  intro ms
  induction ms with
  | nil => intro st; simp
  | cons m ms ih =>
    intro st
    rw [List.foldl_cons, ih]
    by_cases hp : rolePass h a m = true
    · rw [List.filter_cons_of_pos hp]
      cases hv : m.metricValue k with
      | some v =>
        simp only [aggStep, hp, if_true, List.filterMap_cons, hv, List.length_cons]
        omega
      | none => simp [aggStep, hp, hv]
    · rw [List.filter_cons_of_neg (by simpa using hp)]
      simp [aggStep, hp]

/-- C3: every metric average is the sum of that metric's present values over
the role-filtered set divided by the count of matches where it is present,
and it is absent (`none`) — never zero, never undefined — when no filtered
match carries the metric.  A match missing one field still contributes to
every other metric (each metric filters presence independently). -/
theorem computeAggregates_average (ms : List MatchRecord)
    (h a : Option String) (k : Metric) :
    (computeAggregates ms h a).averages k =
      if ((ms.filter (rolePass h a)).filterMap fun m => m.metricValue k) = []
      then none
      else some
        (((ms.filter (rolePass h a)).filterMap fun m => m.metricValue k).sum /
          (((ms.filter (rolePass h a)).filterMap fun m => m.metricValue k).length : ℚ)) := by
  unfold computeAggregates
  simp only [foldl_aggStep_sums, foldl_aggStep_counts, initAggState, zero_add]
  by_cases hv : ((ms.filter (rolePass h a)).filterMap fun m => m.metricValue k) = []
  · simp [hv]
  · simp [hv, List.length_pos.mpr hv]

/-- C8: a match passing the role filter contributes to the over-2.5 /
under-2.5 totals only when both full-time goal counts are present — in which
case (goals being whole numbers) it lands in exactly one of the two — and to
neither when either is absent. -/
theorem over_under_both_goals (m : MatchRecord) (h a : Option String)
    (hp : rolePass h a m = true) :
    (∀ gh ga : ℕ, m.FTHG = some (gh : ℚ) → m.FTAG = some (ga : ℚ) →
      ((computeAggregates [m] h a).totals.over25 = 1 ∧
        (computeAggregates [m] h a).totals.under25 = 0) ∨
      ((computeAggregates [m] h a).totals.over25 = 0 ∧
        (computeAggregates [m] h a).totals.under25 = 1)) ∧
    ((m.FTHG = none ∨ m.FTAG = none) →
      (computeAggregates [m] h a).totals.over25 = 0 ∧
      (computeAggregates [m] h a).totals.under25 = 0) := by
  constructor
  · intro gh ga hg hga
    rcases Nat.lt_or_ge (gh + ga) 3 with hlt | hge
    · right
      have hq : ((gh : ℚ) + ga) < 5 / 2 := by
        have : ((gh : ℚ) + ga) ≤ 2 := by exact_mod_cast Nat.lt_succ_iff.mp hlt
        linarith
      constructor <;>
        simp [computeAggregates, aggStep, hp, initAggState, hg, hga,
          not_lt_of_gt hq, hq]
    · left
      have hq : (5 : ℚ) / 2 < (gh : ℚ) + ga := by
        have : (3 : ℚ) ≤ (gh : ℚ) + ga := by exact_mod_cast hge
        linarith
      constructor <;>
        simp [computeAggregates, aggStep, hp, initAggState, hg, hga,
          hq, not_lt_of_gt hq]
  · intro habs
    rcases habs with h1 | h1 <;>
      constructor <;>
        cases hg : m.FTHG <;> cases hga : m.FTAG <;>
          simp_all [computeAggregates, aggStep, hp, initAggState]

/-- C8 witness: a concrete role-passing match with goals 2 and 1 counts once
in the over/under totals (here: under 2.5). -/
theorem over_under_both_goals_witness :
    rolePass none none (mRec (DateVal.ok 0) (some 2) (some 1)) = true ∧
      (((computeAggregates [mRec (DateVal.ok 0) (some 2) (some 1)] none
            none).totals.over25 = 1 ∧
        (computeAggregates [mRec (DateVal.ok 0) (some 2) (some 1)] none
            none).totals.under25 = 0) ∨
      ((computeAggregates [mRec (DateVal.ok 0) (some 2) (some 1)] none
            none).totals.over25 = 0 ∧
        (computeAggregates [mRec (DateVal.ok 0) (some 2) (some 1)] none
            none).totals.under25 = 1)) :=
  ⟨rfl,
    (over_under_both_goals (mRec (DateVal.ok 0) (some 2) (some 1)) none none
        rfl).1 2 1 (by norm_num [mRec]) (by norm_num [mRec])⟩

/-! ## Theorems: Deviation Controller and Rating Model -/

@[simp] theorem JsNum.num_mul (a b : ℚ) :
    JsNum.num a * JsNum.num b = JsNum.num (a * b) := rfl

@[simp] theorem JsNum.num_add (a b : ℚ) :
    JsNum.num a + JsNum.num b = JsNum.num (a + b) := rfl

@[simp] theorem JsNum.num_sub (a b : ℚ) :
    JsNum.num a - JsNum.num b = JsNum.num (a - b) := by
  show JsNum.num (a + -b) = JsNum.num (a - b)
  rw [← sub_eq_add_neg]

@[simp] theorem JsNum.num_isFiniteB (a : ℚ) :
    (JsNum.num a).isFiniteB = true := rfl

theorem maxDenom_pos (d : ℚ) : 0 < max d EPS :=
  lt_of_lt_of_le (by norm_num [EPS]) (le_max_right d EPS)

@[simp] theorem safeDiv_num (n d : ℚ) :
    safeDiv (JsNum.num n) (JsNum.num d) = JsNum.num (n / max d EPS) := by
  simp [safeDiv, JsNum.isValidNumber, JsNum.maxJ, HDiv.hDiv, Div.div,
    JsNum.div, (maxDenom_pos d).ne']

theorem clampNonNeg_isNonneg (v : JsNum) : (clampNonNeg v).isNonneg := by
  cases v <;>
    simp [clampNonNeg, JsNum.isValidNumber, JsNum.maxJ, JsNum.isNonneg,
      le_max_left]

@[simp] theorem applyDeviationControl_num_finite (a d : ℚ) :
    (applyDeviationControl (JsNum.num a) (JsNum.num d)).isFiniteB = true := by
  simp [applyDeviationControl, JsNum.isValidNumber, clampNonNeg,
    JsNum.maxJ, JsNum.isFiniteB]

/-- C2: for a non-negative blended figure `b`, a deviation of `0` — or any
deviation strictly inside `(-0.25, 0.25)` — leaves `b` unchanged (multiplier
exactly 1); deviations `+2.5` and `+5` both apply the saturated `0.75`
multiplier; and the controller's output is non-negative for all inputs. -/
theorem deviation_control_bands (b : ℚ) (hb : 0 ≤ b) :
    applyDeviationControl (JsNum.num b) (JsNum.num 0) = JsNum.num b ∧
    (∀ d : ℚ, -(1/4) < d → d < 1/4 →
      applyDeviationControl (JsNum.num b) (JsNum.num d) = JsNum.num b) ∧
    applyDeviationControl (JsNum.num b) (JsNum.num (5/2)) =
      JsNum.num (b * (3/4)) ∧
    applyDeviationControl (JsNum.num b) (JsNum.num 5) =
      JsNum.num (b * (3/4)) ∧
    (∀ x g : JsNum, (applyDeviationControl x g).isNonneg) := by
  have hmid : ∀ d : ℚ, -(1/4) < d → d < 1/4 →
      applyDeviationControl (JsNum.num b) (JsNum.num d) = JsNum.num b := by
    intro d h1 h2
    have g1 : ¬(2 : ℚ) ≤ d := by linarith
    have g2 : ¬(1.75 : ℚ) ≤ d := by norm_num; linarith
    have g3 : ¬(1.5 : ℚ) ≤ d := by norm_num; linarith
    have g4 : ¬(1.25 : ℚ) ≤ d := by norm_num; linarith
    have g5 : ¬(1 : ℚ) ≤ d := by linarith
    have g6 : ¬(0.75 : ℚ) ≤ d := by norm_num; linarith
    have g7 : ¬(0.5 : ℚ) ≤ d := by norm_num; linarith
    have g8 : ¬(0.25 : ℚ) ≤ d := by norm_num; linarith
    have l1 : ¬d ≤ (-2 : ℚ) := by linarith
    have l2 : ¬d ≤ (-1.75 : ℚ) := by norm_num; linarith
    have l3 : ¬d ≤ (-1.5 : ℚ) := by norm_num; linarith
    have l4 : ¬d ≤ (-1.25 : ℚ) := by norm_num; linarith
    have l5 : ¬d ≤ (-1 : ℚ) := by linarith
    have l6 : ¬d ≤ (-0.75 : ℚ) := by norm_num; linarith
    have l7 : ¬d ≤ (-0.5 : ℚ) := by norm_num; linarith
    have l8 : ¬d ≤ (-0.25 : ℚ) := by norm_num; linarith
    simp [applyDeviationControl, JsNum.isValidNumber, JsNum.geB, JsNum.leB,
      clampNonNeg, JsNum.maxJ, g1, g2, g3, g4, g5, g6, g7, g8,
      l1, l2, l3, l4, l5, l6, l7, l8, max_eq_right hb]
  refine ⟨hmid 0 (by norm_num) (by norm_num), hmid, ?_, ?_, ?_⟩
  · have hnn : 0 ≤ b * (3/4) := by positivity
    simp [applyDeviationControl, JsNum.isValidNumber, JsNum.geB,
      clampNonNeg, JsNum.maxJ, max_eq_right hnn]
    norm_num
    exact hb
  · have hnn : 0 ≤ b * (3/4) := by positivity
    simp [applyDeviationControl, JsNum.isValidNumber, JsNum.geB,
      clampNonNeg, JsNum.maxJ, max_eq_right hnn]
    norm_num
    exact hb
  · intro x g
    exact clampNonNeg_isNonneg _

/-- C2 witness: the band facts at the concrete blended figure `b = 2`. -/
theorem deviation_control_bands_witness :
    (0 : ℚ) ≤ 2 ∧
      applyDeviationControl (JsNum.num 2) (JsNum.num 0) = JsNum.num 2 ∧
      applyDeviationControl (JsNum.num 2) (JsNum.num (5/2)) =
        JsNum.num (2 * (3/4)) :=
  ⟨by norm_num, (deviation_control_bands 2 (by norm_num)).1,
    (deviation_control_bands 2 (by norm_num)).2.2.1⟩

/-- C4: for any aggregate inputs (each average present or absent), every
scalar field of `computePredictions` is a finite number — never NaN, never
infinite: absent averages enter as zero and every division's denominator is
clamped up to `EPS`. -/
theorem predictions_finite (homeAgg awayAgg leagueAgg : Aggregates) :
    ((computePredictions homeAgg awayAgg leagueAgg).fieldsList.all
      JsNum.isFiniteB) = true := by
  unfold computePredictions Predictions.fieldsList
  simp

/-! ## Theorems: degenerate pipeline on a bad fixture date -/

theorem computeAggregates_nil (h a : Option String) :
    computeAggregates [] h a =
      ⟨fun _ => none, ⟨0, 0, 0, 0, 0, 0⟩⟩ := by
  unfold computeAggregates
  congr 1

theorem poissonAux_zero : ∀ (n k : ℕ) (c : ℝ),
    poissonAux 0 c k n = List.replicate n 0 := by
  intro n
  induction n with
  | zero => intro k c; rfl
  | succ n ih =>
    intro k c
    simp [poissonAux, ih, List.replicate_succ]

/-- C9: an absent or unparseable fixture date makes `filterMatches` return
the empty list (without raising); the empty window then drives the rating
model to λ = 0 on both sides, and `poissonProbabilities 0` is the degenerate
all-mass-at-zero distribution. -/
theorem bad_fixture_date_degenerate (ms : List MatchRecord) (w : ℤ)
    (hteam ateam : String) :
    filterMatches ms DateVal.absent w = [] ∧
    filterMatches ms DateVal.invalid w = [] ∧
    (computePredictions (computeAggregates [] (some hteam) none)
        (computeAggregates [] none (some ateam))
        (computeAggregates [] none none)).HGoalsFormDevi = JsNum.num 0 ∧
    (computePredictions (computeAggregates [] (some hteam) none)
        (computeAggregates [] none (some ateam))
        (computeAggregates [] none none)).AGoalsFormDevi = JsNum.num 0 ∧
    (poissonProbabilities 0).1 = 1 :: List.replicate 9 (0 : ℝ) ∧
    (poissonProbabilities 0).2 = 0 := by
  refine ⟨rfl, ?_, ?_, ?_, ?_, ?_⟩
  · unfold filterMatches
    simp only [toDate, subDays]
    rw [List.filter_eq_nil_iff]
    intro m _
    cases m.dateISO <;> simp [toDate, dateGE]
  · rw [computeAggregates_nil, computeAggregates_nil, computeAggregates_nil]
    unfold computePredictions
    norm_num [applyDeviationControl, clampNonNeg, JsNum.isValidNumber,
      JsNum.geB, JsNum.leB, JsNum.maxJ]
  · rw [computeAggregates_nil, computeAggregates_nil, computeAggregates_nil]
    unfold computePredictions
    norm_num [applyDeviationControl, clampNonNeg, JsNum.isValidNumber,
      JsNum.geB, JsNum.leB, JsNum.maxJ]
  · unfold poissonProbabilities
    simp [poissonAux_zero]
  · unfold poissonProbabilities
    simp [poissonAux_zero, List.sum_replicate]

/-! ## Theorems: Scoring Distribution Model -/

/-- The closed form `e^-λ λ^m / m!` of the iteratively computed Poisson
mass. -/
noncomputable def pterm (lam : ℝ) (m : ℕ) : ℝ :=
  Real.exp (-lam) * lam ^ m / (m.factorial : ℝ)

theorem pterm_zero (lam : ℝ) : pterm lam 0 = Real.exp (-lam) := by
  simp [pterm]

theorem pterm_succ (lam : ℝ) (k : ℕ) :
    pterm lam k * (lam / ((k : ℝ) + 1)) = pterm lam (k + 1) := by
  unfold pterm
  rw [Nat.factorial_succ]
  have hk : ((k : ℝ) + 1) ≠ 0 := by positivity
  have hf : ((k.factorial : ℝ)) ≠ 0 :=
    (Nat.cast_pos.mpr k.factorial_pos).ne'
  push_cast
  field_simp
  ring

theorem poissonAux_closed (lam : ℝ) : ∀ (n k : ℕ),
    poissonAux lam (pterm lam k) (k + 1) n =
      (List.range n).map fun i => pterm lam (k + 1 + i) := by
  intro n
  induction n with
  | zero => intro k; rfl
  | succ n ih =>
    intro k
    have hcast : (((k + 1 : ℕ)) : ℝ) = (k : ℝ) + 1 := by push_cast; ring
    simp only [poissonAux, hcast, pterm_succ]
    rw [ih (k + 1), List.range_succ_eq_map, List.map_cons, List.map_map]
    simp only [Nat.add_zero, Function.comp_def]
    congr 1
    exact List.map_congr_left fun i _ => by congr 1; omega

theorem poissonProbabilities_probs (lam : ℝ) :
    (poissonProbabilities lam).1 =
      (List.range 10).map (pterm (max 0 lam)) := by
  unfold poissonProbabilities
  simp only [← pterm_zero]
  rw [show (1 : ℕ) = 0 + 1 from rfl, poissonAux_closed,
    List.range_succ_eq_map, List.map_cons, List.map_map]
  simp only [Nat.add_zero, Function.comp_def, Nat.zero_add]
  congr 1

theorem sum_map_range_eq (f : ℕ → ℝ) : ∀ n : ℕ,
    ((List.range n).map f).sum = ∑ i ∈ Finset.range n, f i := by
  intro n
  induction n with
  | zero => simp
  | succ n ih =>
    rw [List.range_succ, List.map_append, List.sum_append,
      Finset.sum_range_succ, ih]
    simp

theorem getD_map_range {α : Type} (f : ℕ → α) (n k : ℕ) (d : α) (h : k < n) :
    ((List.range n).map f).getD k d = f k := by
  rw [List.getD_eq_getElem?_getD, List.getElem?_map, List.getElem?_range h]
  rfl

theorem poisson_sum_le_one (lam : ℝ) (h : 0 ≤ lam) :
    (poissonProbabilities lam).1.sum ≤ 1 := by
  rw [poissonProbabilities_probs, sum_map_range_eq, max_eq_right h]
  have hterm : ∑ i ∈ Finset.range 10, pterm lam i =
      Real.exp (-lam) * ∑ i ∈ Finset.range 10, lam ^ i / (i.factorial : ℝ) := by
    rw [Finset.mul_sum]
    exact Finset.sum_congr rfl fun i _ => by unfold pterm; ring
  rw [hterm]
  calc Real.exp (-lam) * ∑ i ∈ Finset.range 10, lam ^ i / (i.factorial : ℝ)
      ≤ Real.exp (-lam) * Real.exp lam :=
        mul_le_mul_of_nonneg_left (Real.sum_le_exp_of_nonneg h 10)
          (Real.exp_nonneg _)
    _ = 1 := by rw [← Real.exp_add]; simp

/-- C1: for λ ≥ 0, `poissonProbabilities` returns ten probabilities with
`P(0) = e^-λ` and `P(k) = P(k-1)·λ/k`, a tail bucket
`max 0 (1 - sum P(0..9))`, and the eleven values sum to 1 exactly (hence
within the 1e-6 tolerance). -/
theorem poisson_distribution_spec (lam : ℝ) (hl : 0 ≤ lam) :
    (poissonProbabilities lam).1.length = 10 ∧
    (poissonProbabilities lam).1.getD 0 0 = Real.exp (-lam) ∧
    (∀ k : ℕ, k < 9 →
      (poissonProbabilities lam).1.getD (k + 1) 0 =
        (poissonProbabilities lam).1.getD k 0 * (lam / ((k : ℝ) + 1))) ∧
    (poissonProbabilities lam).2 =
      max 0 (1 - (poissonProbabilities lam).1.sum) ∧
    (poissonProbabilities lam).1.sum + (poissonProbabilities lam).2 = 1 ∧
    |(poissonProbabilities lam).1.sum + (poissonProbabilities lam).2 - 1|
      ≤ 1 / 1000000 := by
  have hmax : max 0 lam = lam := max_eq_right hl
  have hsum : (poissonProbabilities lam).1.sum +
      (poissonProbabilities lam).2 = 1 := by
    have hle := poisson_sum_le_one lam hl
    have h2 : (poissonProbabilities lam).2 =
        1 - (poissonProbabilities lam).1.sum := by
      show max 0 (1 - (poissonProbabilities lam).1.sum) = _
      exact max_eq_right (by linarith)
    rw [h2]; ring
  refine ⟨?_, ?_, ?_, rfl, hsum, by rw [hsum]; norm_num⟩
  · rw [poissonProbabilities_probs]; simp
  · rw [poissonProbabilities_probs, getD_map_range _ _ _ _ (by norm_num),
      pterm_zero, hmax]
  · intro k hk
    rw [poissonProbabilities_probs, getD_map_range _ _ _ _ (by omega),
      getD_map_range _ _ _ _ (by omega), hmax, pterm_succ]

/-- C1 witness: the hypothesis and conclusion at the concrete rate λ = 0. -/
theorem poisson_distribution_spec_witness :
    (0 : ℝ) ≤ 0 ∧
    ((poissonProbabilities 0).1.length = 10 ∧
    (poissonProbabilities 0).1.getD 0 0 = Real.exp (-0) ∧
    (∀ k : ℕ, k < 9 →
      (poissonProbabilities 0).1.getD (k + 1) 0 =
        (poissonProbabilities 0).1.getD k 0 * ((0 : ℝ) / ((k : ℝ) + 1))) ∧
    (poissonProbabilities 0).2 =
      max 0 (1 - (poissonProbabilities 0).1.sum) ∧
    (poissonProbabilities 0).1.sum + (poissonProbabilities 0).2 = 1 ∧
    |(poissonProbabilities 0).1.sum + (poissonProbabilities 0).2 - 1|
      ≤ 1 / 1000000) :=
  ⟨le_refl 0, poisson_distribution_spec 0 (le_refl 0)⟩

/-! ## Theorems: Outcome Grid Builder -/

theorem sum_getD_range (l : List ℝ) :
    ∑ i ∈ Finset.range l.length, l.getD i 0 = l.sum := by
  induction l with
  | nil => simp
  | cons c t ih =>
    rw [List.length_cons, Finset.sum_range_succ']
    simp only [List.getD_cons_succ, List.getD_cons_zero, ih]
    rw [List.sum_cons]
    ring

theorem sum_range_extended (l : List ℝ) (x : ℝ) :
    ∑ i ∈ Finset.range (l.length + 1),
      (if i = l.length then x else l.getD i 0) = l.sum + x := by
  rw [Finset.sum_range_succ, if_pos rfl]
  congr 1
  rw [← sum_getD_range l]
  refine Finset.sum_congr rfl fun i hi => ?_
  rw [if_neg (Finset.mem_range.mp hi).ne]

theorem getD_extended (l : List ℝ) (x : ℝ) (i : ℕ) :
    (l ++ [x]).getD i 0 = if i = l.length then x else l.getD i 0 := by
  by_cases h : i = l.length
  · subst h
    rw [List.getD_eq_getElem?_getD, List.getElem?_concat_length, if_pos rfl]
    rfl
  · rw [if_neg h]
    by_cases hlt : i < l.length
    · rw [List.getD_eq_getElem?_getD, List.getElem?_append_left hlt,
        ← List.getD_eq_getElem?_getD]
    · have h1 : (l ++ [x]).length ≤ i := by
        rw [List.length_append, List.length_singleton]; omega
      have h2 : l.length ≤ i := by omega
      rw [List.getD_eq_getElem?_getD, List.getElem?_eq_none h1,
        List.getD_eq_getElem?_getD, List.getElem?_eq_none h2]

theorem buildCorrectScoreGrid_grid (hp ap : List ℝ) (h9 a9 : ℝ) :
    (buildCorrectScoreGrid hp ap h9 a9).grid =
      (List.range (hp.length + 1)).map fun i =>
        (List.range (hp.length + 1)).map fun j =>
          (if i = hp.length then h9 else hp.getD i 0) *
            (if j = hp.length then a9 else ap.getD j 0) := rfl

/-- C5: for two 11-value distributions (10 head probabilities plus a tail),
every grid cell `[i][j]` is the product of the home mass at `i` and the away
mass at `j`, and the 121 cells sum to the product of the two distributions'
total masses. -/
theorem correct_score_grid_spec (hp ap : List ℝ) (h9 a9 : ℝ)
    (hh : hp.length = 10) (ha : ap.length = 10) :
    (∀ i j : ℕ, i < 11 → j < 11 →
      ((buildCorrectScoreGrid hp ap h9 a9).grid.getD i []).getD j 0 =
        (hp ++ [h9]).getD i 0 * (ap ++ [a9]).getD j 0) ∧
    ((buildCorrectScoreGrid hp ap h9 a9).grid.map List.sum).sum =
      (hp.sum + h9) * (ap.sum + a9) := by
  constructor
  · intro i j hi hj
    rw [buildCorrectScoreGrid_grid,
      getD_map_range _ _ _ _ (show i < hp.length + 1 by omega),
      getD_map_range _ _ _ _ (show j < hp.length + 1 by omega),
      getD_extended, getD_extended, hh, ha]
  · rw [buildCorrectScoreGrid_grid, List.map_map, sum_map_range_eq]
    simp only [Function.comp_def]
    have hrow : ∀ i : ℕ,
        (((List.range (hp.length + 1)).map fun j =>
          (if i = hp.length then h9 else hp.getD i 0) *
            (if j = hp.length then a9 else ap.getD j 0)).sum) =
        (if i = hp.length then h9 else hp.getD i 0) * (ap.sum + a9) := by
      intro i
      rw [sum_map_range_eq, ← Finset.mul_sum]
      congr 1
      rw [show hp.length = ap.length by omega]
      exact sum_range_extended ap a9
    rw [Finset.sum_congr rfl fun i _ => hrow i, ← Finset.sum_mul,
      sum_range_extended hp h9]

/-- C5 witness: the product identity at two concrete all-mass-at-zero
distributions, where the grid total is exactly 1. -/
theorem correct_score_grid_spec_witness :
    ((1 : ℝ) :: List.replicate 9 (0 : ℝ)).length = 10 ∧
    ((1 : ℝ) :: List.replicate 9 (0 : ℝ)).length = 10 ∧
    ((∀ i j : ℕ, i < 11 → j < 11 →
      ((buildCorrectScoreGrid ((1 : ℝ) :: List.replicate 9 (0 : ℝ))
          ((1 : ℝ) :: List.replicate 9 (0 : ℝ)) 0 0).grid.getD i []).getD j 0 =
        (((1 : ℝ) :: List.replicate 9 (0 : ℝ)) ++ [(0 : ℝ)]).getD i 0 *
          (((1 : ℝ) :: List.replicate 9 (0 : ℝ)) ++ [(0 : ℝ)]).getD j 0) ∧
    ((buildCorrectScoreGrid ((1 : ℝ) :: List.replicate 9 (0 : ℝ))
        ((1 : ℝ) :: List.replicate 9 (0 : ℝ)) 0 0).grid.map List.sum).sum =
      (((1 : ℝ) :: List.replicate 9 (0 : ℝ)).sum + 0) *
        (((1 : ℝ) :: List.replicate 9 (0 : ℝ)).sum + 0)) :=
  ⟨by simp, by simp,
    correct_score_grid_spec ((1 : ℝ) :: List.replicate 9 (0 : ℝ))
      ((1 : ℝ) :: List.replicate 9 (0 : ℝ)) 0 0 (by simp) (by simp)⟩

/-! ## Theorems: BTTS market -/

theorem getD_nonneg (l : List ℝ) (hl : ∀ x ∈ l, 0 ≤ x) (i : ℕ) :
    0 ≤ l.getD i 0 := by
  rw [List.getD_eq_getElem?_getD]
  cases h : l[i]? with
  | none => simp
  | some v =>
    simp only [Option.getD_some]
    exact hl v (List.getElem?_mem h)

theorem computeSummaryMarkets_bttsYes (grid : List (List ℝ)) :
    (computeSummaryMarkets grid).bttsYes =
      ∑ i ∈ Finset.range grid.length,
        ∑ j ∈ Finset.range (grid.getD i []).length,
          if 1 ≤ (if i = grid.length - 1 then 10 else i) ∧
              1 ≤ (if j = grid.length - 1 then 10 else j)
            then (grid.getD i []).getD j 0 else 0 := rfl

theorem computeSummaryMarkets_bttsNo (grid : List (List ℝ)) :
    (computeSummaryMarkets grid).bttsNo =
      max 0 (1 - (computeSummaryMarkets grid).bttsYes) := rfl

/-- C7: for a grid built from two valid scoring distributions (non-negative,
total mass 1 each), the BTTS "No" probability of `computeSummaryMarkets`
equals row 0 plus column 0 minus cell [0][0] of the grid
(inclusion-exclusion), and "Yes" + "No" = 1 exactly. -/
theorem btts_inclusion_exclusion (hp ap : List ℝ) (h9 a9 : ℝ)
    (hh : hp.length = 10) (ha : ap.length = 10)
    (hpn : ∀ x ∈ hp, 0 ≤ x) (h9n : 0 ≤ h9)
    (apn : ∀ x ∈ ap, 0 ≤ x) (a9n : 0 ≤ a9)
    (hsh : hp.sum + h9 = 1) (hsa : ap.sum + a9 = 1) :
    (computeSummaryMarkets (buildCorrectScoreGrid hp ap h9 a9).grid).bttsNo =
      ((buildCorrectScoreGrid hp ap h9 a9).grid.getD 0 []).sum +
        ((buildCorrectScoreGrid hp ap h9 a9).grid.map fun r =>
          r.getD 0 0).sum -
        ((buildCorrectScoreGrid hp ap h9 a9).grid.getD 0 []).getD 0 0 ∧
    (computeSummaryMarkets (buildCorrectScoreGrid hp ap h9 a9).grid).bttsYes +
      (computeSummaryMarkets (buildCorrectScoreGrid hp ap h9 a9).grid).bttsNo
        = 1 := by
  have hH0n : 0 ≤ hp.getD 0 0 := getD_nonneg hp hpn 0
  have hA0n : 0 ≤ ap.getD 0 0 := getD_nonneg ap apn 0
  have hH0le : hp.getD 0 0 ≤ 1 := by
    have h1 : hp.getD 0 0 ≤ hp.sum := by
      rw [← sum_getD_range hp]
      refine Finset.single_le_sum (fun i _ => getD_nonneg hp hpn i) ?_
      rw [Finset.mem_range, hh]
      norm_num
    linarith
  have hA0le : ap.getD 0 0 ≤ 1 := by
    have h1 : ap.getD 0 0 ≤ ap.sum := by
      rw [← sum_getD_range ap]
      refine Finset.single_le_sum (fun i _ => getD_nonneg ap apn i) ?_
      rw [Finset.mem_range, ha]
      norm_num
    linarith
  have hGgrid := buildCorrectScoreGrid_grid hp ap h9 a9
  have hGlen : (buildCorrectScoreGrid hp ap h9 a9).grid.length = 11 := by
    rw [hGgrid]
    simp [hh]
  have hrowl : ∀ i, i < 11 →
      ((buildCorrectScoreGrid hp ap h9 a9).grid.getD i []).length = 11 := by
    intro i hi
    rw [hGgrid, getD_map_range _ _ _ _ (show i < hp.length + 1 by omega)]
    simp [hh]
  have hcell : ∀ i j : ℕ, i < 11 → j < 11 →
      ((buildCorrectScoreGrid hp ap h9 a9).grid.getD i []).getD j 0 =
        (if i = 10 then h9 else hp.getD i 0) *
          (if j = 10 then a9 else ap.getD j 0) := by
    intro i j hi hj
    rw [hGgrid, getD_map_range _ _ _ _ (show i < hp.length + 1 by omega),
      getD_map_range _ _ _ _ (show j < hp.length + 1 by omega), hh]
  have hsumH : ∑ i ∈ Finset.range 11,
      (if i = 10 then h9 else hp.getD i 0) = 1 := by
    have hext := sum_range_extended hp h9
    rw [hh] at hext
    rw [show (11 : ℕ) = 10 + 1 from rfl]
    rw [hext, hsh]
  have hsumA : ∑ j ∈ Finset.range 11,
      (if j = 10 then a9 else ap.getD j 0) = 1 := by
    have hext := sum_range_extended ap a9
    rw [ha] at hext
    rw [show (11 : ℕ) = 10 + 1 from rfl]
    rw [hext, hsa]
  have hB : (computeSummaryMarkets
      (buildCorrectScoreGrid hp ap h9 a9).grid).bttsYes =
      (1 - hp.getD 0 0) * (1 - ap.getD 0 0) := by
    rw [computeSummaryMarkets_bttsYes, hGlen,
      show (11 : ℕ) - 1 = 10 from rfl]
    have hstep1 : ∑ i ∈ Finset.range 11,
        ∑ j ∈ Finset.range
          ((buildCorrectScoreGrid hp ap h9 a9).grid.getD i []).length,
          (if 1 ≤ (if i = 10 then 10 else i) ∧ 1 ≤ (if j = 10 then 10 else j)
            then ((buildCorrectScoreGrid hp ap h9 a9).grid.getD i []).getD j 0
            else 0) =
        ∑ i ∈ Finset.range 11, ∑ j ∈ Finset.range 11,
          (if 1 ≤ i ∧ 1 ≤ j
            then (if i = 10 then h9 else hp.getD i 0) *
              (if j = 10 then a9 else ap.getD j 0)
            else 0) := by
      refine Finset.sum_congr rfl fun i hi => ?_
      have hi11 := Finset.mem_range.mp hi
      rw [hrowl i hi11]
      refine Finset.sum_congr rfl fun j hj => ?_
      have hj11 := Finset.mem_range.mp hj
      rw [hcell i j hi11 hj11]
      refine if_congr (and_congr ?_ ?_) rfl rfl <;> split <;> omega
    rw [hstep1]
    have hinner : ∀ i : ℕ,
        (∑ j ∈ Finset.range 11,
          (if 1 ≤ i ∧ 1 ≤ j
            then (if i = 10 then h9 else hp.getD i 0) *
              (if j = 10 then a9 else ap.getD j 0)
            else 0)) =
        (if 1 ≤ i then (if i = 10 then h9 else hp.getD i 0) else 0) *
          ∑ j ∈ Finset.range 11,
            (if 1 ≤ j then (if j = 10 then a9 else ap.getD j 0) else 0) := by
      intro i
      by_cases hi1 : 1 ≤ i
      · simp only [hi1, true_and, if_true, Finset.mul_sum, mul_ite, mul_zero]
      · simp [hi1]
    rw [Finset.sum_congr rfl fun i _ => hinner i, ← Finset.sum_mul]
    have hsplitH : ∑ i ∈ Finset.range 11,
        (if 1 ≤ i then (if i = 10 then h9 else hp.getD i 0) else 0) =
        1 - hp.getD 0 0 := by
      have h1 : ∑ i ∈ Finset.range 11,
          (if 1 ≤ i then (if i = 10 then h9 else hp.getD i 0) else 0) =
          ∑ i ∈ Finset.range 11,
            ((if i = 10 then h9 else hp.getD i 0) -
              (if i = 0 then hp.getD 0 0 else 0)) := by
        refine Finset.sum_congr rfl fun i _ => ?_
        rcases Nat.eq_zero_or_pos i with rfl | hipos
        · norm_num
        · rw [if_pos (show 1 ≤ i by omega), if_neg (by omega : ¬i = 0), sub_zero]
      rw [h1, Finset.sum_sub_distrib, hsumH, Finset.sum_ite_eq' (Finset.range 11) 0
        (fun _ => hp.getD 0 0)]
      simp
    have hsplitA : ∑ j ∈ Finset.range 11,
        (if 1 ≤ j then (if j = 10 then a9 else ap.getD j 0) else 0) =
        1 - ap.getD 0 0 := by
      have h1 : ∑ j ∈ Finset.range 11,
          (if 1 ≤ j then (if j = 10 then a9 else ap.getD j 0) else 0) =
          ∑ j ∈ Finset.range 11,
            ((if j = 10 then a9 else ap.getD j 0) -
              (if j = 0 then ap.getD 0 0 else 0)) := by
        refine Finset.sum_congr rfl fun j _ => ?_
        rcases Nat.eq_zero_or_pos j with rfl | hjpos
        · norm_num
        · rw [if_pos (show 1 ≤ j by omega), if_neg (by omega : ¬j = 0), sub_zero]
      rw [h1, Finset.sum_sub_distrib, hsumA, Finset.sum_ite_eq' (Finset.range 11) 0
        (fun _ => ap.getD 0 0)]
      simp
    rw [hsplitH, hsplitA]
  have hrow0 : ((buildCorrectScoreGrid hp ap h9 a9).grid.getD 0 []).sum =
      hp.getD 0 0 := by
    rw [hGgrid, getD_map_range _ _ _ _ (show 0 < hp.length + 1 by omega),
      sum_map_range_eq, ← Finset.mul_sum,
      show hp.length = ap.length by omega, sum_range_extended ap a9, hsa,
      mul_one, if_neg (by omega : ¬(0 : ℕ) = ap.length)]
  have hcol0 : ((buildCorrectScoreGrid hp ap h9 a9).grid.map fun r =>
      r.getD 0 0).sum = ap.getD 0 0 := by
    rw [hGgrid, List.map_map]
    simp only [Function.comp_def]
    rw [List.map_congr_left fun i _ =>
        getD_map_range _ _ 0 (0 : ℝ) (by omega),
      sum_map_range_eq, ← Finset.sum_mul, sum_range_extended hp h9, hsh,
      one_mul, if_neg (by omega : ¬(0 : ℕ) = hp.length)]
  have hc00 : ((buildCorrectScoreGrid hp ap h9 a9).grid.getD 0 []).getD 0 0 =
      hp.getD 0 0 * ap.getD 0 0 := by
    rw [hcell 0 0 (by norm_num) (by norm_num)]
    norm_num
  have hBle : (1 - hp.getD 0 0) * (1 - ap.getD 0 0) ≤ 1 := by nlinarith
  constructor
  · rw [computeSummaryMarkets_bttsNo, hB, hrow0, hcol0, hc00,
      max_eq_right (by nlinarith)]
    ring
  · rw [computeSummaryMarkets_bttsNo, hB, max_eq_right (by nlinarith)]
    ring

/-- C7 witness: the inclusion-exclusion identity at the concrete
all-mass-at-zero distribution on both sides. -/
theorem btts_inclusion_exclusion_witness :
    ((1 : ℝ) :: List.replicate 9 (0 : ℝ)).length = 10 ∧
    (∀ x ∈ (1 : ℝ) :: List.replicate 9 (0 : ℝ), 0 ≤ x) ∧
    ((1 : ℝ) :: List.replicate 9 (0 : ℝ)).sum + 0 = 1 ∧
    ((computeSummaryMarkets (buildCorrectScoreGrid
        ((1 : ℝ) :: List.replicate 9 (0 : ℝ))
        ((1 : ℝ) :: List.replicate 9 (0 : ℝ)) 0 0).grid).bttsNo =
      ((buildCorrectScoreGrid ((1 : ℝ) :: List.replicate 9 (0 : ℝ))
          ((1 : ℝ) :: List.replicate 9 (0 : ℝ)) 0 0).grid.getD 0 []).sum +
        ((buildCorrectScoreGrid ((1 : ℝ) :: List.replicate 9 (0 : ℝ))
          ((1 : ℝ) :: List.replicate 9 (0 : ℝ)) 0 0).grid.map fun r =>
            r.getD 0 0).sum -
        ((buildCorrectScoreGrid ((1 : ℝ) :: List.replicate 9 (0 : ℝ))
          ((1 : ℝ) :: List.replicate 9 (0 : ℝ)) 0 0).grid.getD 0 []).getD 0 0 ∧
    (computeSummaryMarkets (buildCorrectScoreGrid
        ((1 : ℝ) :: List.replicate 9 (0 : ℝ))
        ((1 : ℝ) :: List.replicate 9 (0 : ℝ)) 0 0).grid).bttsYes +
      (computeSummaryMarkets (buildCorrectScoreGrid
        ((1 : ℝ) :: List.replicate 9 (0 : ℝ))
        ((1 : ℝ) :: List.replicate 9 (0 : ℝ)) 0 0).grid).bttsNo = 1) := by
  have hlen : ((1 : ℝ) :: List.replicate 9 (0 : ℝ)).length = 10 := by simp
  have hnn : ∀ x ∈ (1 : ℝ) :: List.replicate 9 (0 : ℝ), 0 ≤ x := by
    intro x hx
    rcases List.mem_cons.mp hx with rfl | hx
    · norm_num
    · rw [List.eq_of_mem_replicate hx]
  have hsum : ((1 : ℝ) :: List.replicate 9 (0 : ℝ)).sum + 0 = 1 := by simp
  exact ⟨hlen, hnn, hsum,
    btts_inclusion_exclusion ((1 : ℝ) :: List.replicate 9 (0 : ℝ))
      ((1 : ℝ) :: List.replicate 9 (0 : ℝ)) 0 0 hlen hlen hnn le_rfl hnn
      le_rfl hsum hsum⟩

end Gamepicker
